import Mathlib

/-!
# Verification of the declarative symlink reconciliation engine

Shallow embedding of the reconciliation core of the `home` repository:
`bin/homelib/models.py`, `bin/homelib/symlinks.py`,
`bin/homelib/command_install.py` and `bin/lib/home/config.py`.

Paths are modelled as lists of components (`FilePath`), the filesystem as an
association list from paths to nodes (`FS`).  Python exceptions are modelled
with `Except PyErr`; code that mutates state before an exception escapes is
modelled as returning the mutated state together with the error.
-/

namespace Home

/-- Values occurring in a parsed TOML document, as produced by `tomllib`:
strings, integers, arrays and tables (only the shapes the engine touches). -/
inductive TomlVal where
  | str (s : String)
  | int (n : Int)
  | vlist (xs : List TomlVal)
  | table (fields : List (String × TomlVal))
deriving Repr

/-- Structural equality of TOML values, mirroring Python `==`. -/
def TomlVal.beq : TomlVal → TomlVal → Bool
  | .str a, .str b => a == b
  | .int a, .int b => a == b
  | .vlist a, .vlist b => beqList a b
  | .table a, .table b => beqTable a b
  | _, _ => false
where
  beqList : List TomlVal → List TomlVal → Bool
    | [], [] => true
    | x :: xs, y :: ys => x.beq y && beqList xs ys
    | _, _ => false
  beqTable : List (String × TomlVal) → List (String × TomlVal) → Bool
    | [], [] => true
    | (k, x) :: xs, (l, y) :: ys => k == l && x.beq y && beqTable xs ys
    | _, _ => false

instance : BEq TomlVal := ⟨TomlVal.beq⟩

/-- Python exceptions the embedded code can raise. -/
inductive PyErr where
  | keyError
  | valueError
  | typeError
  | attributeError
  | osError
  | fileNotFound
  | systemExit (code : Nat)
deriving DecidableEq, Repr

/-- Dictionary lookup on an association list (first binding wins),
modelling Python `dict` access for our small documents. -/
def lookupKey : List (String × TomlVal) → String → Option TomlVal
  | [], _ => none
  | (k, v) :: rest, key => if key = k then some v else lookupKey rest key

/-- `models.LabelRequirement`: the tuple of alternative labels.  The Python
annotation says `tuple[str, ...]` but the constructor stores arbitrary
values, so the field holds raw TOML values. -/
structure LabelRequirement where
  labels : List TomlVal
deriving Repr

/-- `LabelRequirement.from_value`: a string becomes a one-label requirement,
a list is stored as-is (its elements are not checked to be strings), any
other value raises `ValueError`. -/
def LabelRequirement.from_value : TomlVal → Except PyErr LabelRequirement
  | .str s => .ok ⟨[.str s]⟩
  | .vlist xs => .ok ⟨xs⟩
  | _ => .error .valueError

/-- Python `value in config_labels` for a list of labels. -/
def pyIn (v : TomlVal) (config_labels : List TomlVal) : Bool :=
  config_labels.any (fun w => v.beq w)

/-- `LabelRequirement.matches`: a single label must be present; an OR
requirement is satisfied when at least one of its labels is present. -/
def LabelRequirement.matches (self : LabelRequirement)
    (config_labels : List TomlVal) : Bool :=
  if self.labels.length = 1 then
    pyIn (self.labels.getD 0 (.str "")) config_labels
  else
    self.labels.any (fun label => pyIn label config_labels)

/-- `models.HomeEntry`: a declaration from `home.toml`.  `source` and
`target` keep the raw TOML values the parser stored. -/
structure HomeEntry where
  table_name : String
  source : TomlVal
  target : TomlVal
  requirements : List LabelRequirement
deriving Repr

/-- Iterating a TOML value with a Python `for` loop: lists yield their
elements, strings yield their one-character substrings, anything else
raises `TypeError`. -/
def pyIter : TomlVal → Except PyErr (List TomlVal)
  | .vlist xs => .ok xs
  | .str s => .ok (s.toList.map (fun c => .str (String.singleton c)))
  | _ => .error .typeError

/-- The list comprehension of `from_toml`: parse each raw requirement in
order, letting the first failure escape. -/
def parseRequirements : List TomlVal → Except PyErr (List LabelRequirement)
  | [] => .ok []
  | v :: vs => do
    let r ← LabelRequirement.from_value v
    let rs ← parseRequirements vs
    pure (r :: rs)

/-- `HomeEntry.from_toml`: `source` defaults to `config/<table_name>`,
a missing `target` raises `KeyError`, the `labels` value defaults to the
empty list and each of its elements is parsed with
`LabelRequirement.from_value`. -/
def HomeEntry.from_toml (table_name : String)
    (entry_data : List (String × TomlVal)) : Except PyErr HomeEntry := do
  let source := (lookupKey entry_data "source").getD
    (.str ("config/" ++ table_name))
  let target ← match lookupKey entry_data "target" with
    | some v => pure v
    | none => Except.error PyErr.keyError
  let reqValues ← pyIter ((lookupKey entry_data "labels").getD (.vlist []))
  let requirements ← parseRequirements reqValues
  pure { table_name := table_name, source := source, target := target,
         requirements := requirements }

/-- `HomeEntry.matches_labels`: entries without requirements match every
label configuration; otherwise all requirements must be satisfied. -/
def HomeEntry.matches_labels (self : HomeEntry)
    (config_labels : List TomlVal) : Bool :=
  if self.requirements.isEmpty then
    true
  else
    self.requirements.all (fun req => req.matches config_labels)

/-!
## Filesystem model

Paths are atomic lists of components, the filesystem is an association list
mapping a path to the node stored there.  `pathlib` calls are modelled per
whole path: `is_symlink` inspects the node itself, `exists` and `resolve`
follow chains of symlink nodes (`Path.resolve(strict=False)`; a symlink loop
raises `OSError`, which the fuel bound detects by pigeonhole).  Parent
directories are below the granularity of this path-atomic model, so
`mkdir(parents=True, exist_ok=True)` has no observable effect in it.
-/

/-- A filesystem path, split into components. -/
abbrev FilePath := List String

/-- A filesystem node: a regular file, a directory, or a symbolic link
storing its (unresolved) target path. -/
inductive FSNode where
  | file
  | dir
  | symlink (target : FilePath)
deriving DecidableEq, Repr

/-- Filesystem state: association list from paths to nodes. -/
abbrev FS := List (FilePath × FSNode)

/-- Look up the node stored at a path (first binding wins). -/
def fsFind : FS → FilePath → Option FSNode
  | [], _ => none
  | (q, n) :: rest, p => if p = q then some n else fsFind rest p

/-- `target_path.symlink_to(source)` / node creation: record a node at a
path.  The engine only ever calls it on paths that have no node. -/
def fsSet (fs : FS) (p : FilePath) (n : FSNode) : FS := (p, n) :: fs

/-- `Path.unlink()`: drop the node stored at a path. -/
def fsUnlink (fs : FS) (p : FilePath) : FS :=
  fs.filter (fun e => e.1 != p)

/-- Follow symlink nodes for at most `fuel` steps. -/
def resolveAux (fs : FS) : Nat → FilePath → Except Unit FilePath
  | 0, _ => .error ()
  | fuel + 1, p =>
    match fsFind fs p with
    | some (.symlink t) => resolveAux fs fuel t
    | _ => .ok p

/-- `Path.resolve()`: follow symlinks to the final path; a chain longer than
the number of stored nodes must revisit a node, i.e. the resolution loops,
which `pathlib` reports as an `OSError`. -/
def pyResolve (fs : FS) (p : FilePath) : Except Unit FilePath :=
  resolveAux fs (fs.length + 1) p

/-- `Path.exists()`: the fully resolved path carries a node (a broken link
or a symlink loop yields `False`). -/
def pyExists (fs : FS) (p : FilePath) : Bool :=
  match pyResolve fs p with
  | .error _ => false
  | .ok q => (fsFind fs q).isSome

/-- `Path.is_symlink()`: the node at the path itself is a symlink. -/
def pyIsSymlink (fs : FS) (p : FilePath) : Bool :=
  match fsFind fs p with
  | some (.symlink _) => true
  | _ => false

/-- `Path.is_relative_to(root)` on two resolved absolute paths: component
prefix test. -/
def isRelativeTo (p root : FilePath) : Bool :=
  root.isPrefixOf p

/-!
## Status enum and operations (`models.py`)
-/

/-- `models.SymlinkStatus`: the status enum as defined in `models.py`.
Note that it has no `OVERRIDDEN` / `OVERRIDDEN_DRYRUN` member, although
`command_install.py` refers to such members. -/
inductive SymlinkStatus where
  | alreadyExists
  | created
  | createdDryrun
  | skippedNotSymlink
  | skippedSourceNotFound
  | removed
  | removedDryrun
deriving DecidableEq, Repr

/-- `models.SymlinkOperation`: an entry with resolved absolute paths. -/
structure SymlinkOperation where
  entry : HomeEntry
  source_path : FilePath
  target_path : FilePath
deriving Repr

/-- `SymlinkOperation.__eq__`: operations are equal iff their target paths
are equal. -/
def SymlinkOperation.pyEq (self other : SymlinkOperation) : Bool :=
  self.target_path = other.target_path

/-- `models.SymlinkResult`. -/
structure SymlinkResult where
  operation : SymlinkOperation
  status : SymlinkStatus
deriving Repr

/-- Configuration state used by the executor: the dry-run flag and the
repository root (`script_dir` / `repo_root` in the two variants). -/
structure Config where
  dryrun : Bool
  repo_root : FilePath
deriving Repr

/-!
## Planner (`symlinks.py` lines 60–98, `command_install.py` line 44)
-/

/-- `filter_operations_by_labels`: keep the operations whose entry matches
the active labels. -/
def filter_operations_by_labels (operations : List SymlinkOperation)
    (config_labels : List TomlVal) : List SymlinkOperation :=
  operations.filter (fun op => op.entry.matches_labels config_labels)

/-- Python `set(...)` over operations: insertion keeps the first element of
each `__eq__`-class (identity is the target path). -/
def pySetOfOps (l : List SymlinkOperation) : List SymlinkOperation :=
  l.foldl (fun acc x => if acc.any (fun y => y.pyEq x) then acc else acc ++ [x]) []

/-- Python set difference by operation identity. -/
def pySetDiffOps (a b : List SymlinkOperation) : List SymlinkOperation :=
  a.filter (fun x => !(b.any (fun y => y.pyEq x)))

/-- `find_obsolete_operations`: `set(all_operations) - set(filtered_operations)`
(membership by target-path identity; Python leaves the iteration order of the
resulting set unspecified, the model keeps first-insertion order). -/
def find_obsolete_operations (all_operations filtered_operations :
    List SymlinkOperation) : List SymlinkOperation :=
  pySetDiffOps (pySetOfOps all_operations) (pySetOfOps filtered_operations)

/-!
## Executor, `symlinks.py` variant (lines 105–183)
-/

namespace SL

/-- `symlinks.apply_install_operation`: skip a missing source, keep any
existing symlink, skip an existing non-symlink, otherwise create the link
(parent-directory creation is below the model's path granularity). -/
def apply_install_operation (config : Config) (fs : FS)
    (operation : SymlinkOperation) : FS × SymlinkResult :=
  if !(pyExists fs operation.source_path) then
    (fs, ⟨operation, .skippedSourceNotFound⟩)
  else if pyIsSymlink fs operation.target_path then
    (fs, ⟨operation, .alreadyExists⟩)
  else if pyExists fs operation.target_path then
    (fs, ⟨operation, .skippedNotSymlink⟩)
  else if config.dryrun then
    (fs, ⟨operation, .createdDryrun⟩)
  else
    (fsSet fs operation.target_path (.symlink operation.source_path),
     ⟨operation, .created⟩)

end SL

/-- `apply_removal_operation` (identical in `symlinks.py` lines 150–183 and
`command_install.py` lines 133–155): remove the target link only when it is
a symlink whose resolution equals the resolved source; any resolution error
is swallowed into a no-op `None`. -/
def apply_removal_operation (config : Config) (fs : FS)
    (operation : SymlinkOperation) : FS × Option SymlinkResult :=
  if !(pyIsSymlink fs operation.target_path) then
    (fs, none)
  else
    match pyResolve fs operation.target_path with
    | .error _ => (fs, none)
    | .ok resolved_target =>
      match pyResolve fs operation.source_path with
      | .error _ => (fs, none)
      | .ok resolved_source =>
        if resolved_target ≠ resolved_source then
          (fs, none)
        else if config.dryrun then
          (fs, some ⟨operation, .removedDryrun⟩)
        else
          (fsUnlink fs operation.target_path, some ⟨operation, .removed⟩)

/-!
## Executor, `command_install.py` variant (lines 109–213)

`override_symlink` assigns `SymlinkStatus.OVERRIDDEN_DRYRUN` /
`SymlinkStatus.OVERRIDDEN`, but `models.SymlinkStatus` defines no such
members, so those attribute accesses raise `AttributeError` at run time —
after the unlink/symlink mutations in real mode, before any mutation in
dry-run mode.  The embedding makes this explicit.
-/

namespace CI

/-- `command_install.override_symlink`: in real mode the old link is removed
and the new one created before the missing enum member is touched; the
status assignment itself raises `AttributeError` in both modes. -/
def override_symlink (config : Config) (fs : FS)
    (operation : SymlinkOperation) : FS × Except PyErr SymlinkResult :=
  if config.dryrun then
    (fs, .error .attributeError)
  else
    let fs1 := fsUnlink fs operation.target_path
    let fs2 := fsSet fs1 operation.target_path (.symlink operation.source_path)
    (fs2, .error .attributeError)

/-- `command_install.evaluate_existing_symlink`: resolve the existing link;
keep it when it already points at the source or lies outside the repository
root, override it when it points elsewhere inside the root; any exception in
the `try` block (resolution failure or the missing enum member) falls back
to `ALREADY_EXISTS`, keeping whatever mutation already happened. -/
def evaluate_existing_symlink (config : Config) (fs : FS)
    (operation : SymlinkOperation) : FS × SymlinkResult :=
  let body : FS × Except PyErr SymlinkResult :=
    match pyResolve fs operation.target_path with
    | .error _ => (fs, .error .osError)
    | .ok existing_target =>
      match pyResolve fs operation.source_path with
      | .error _ => (fs, .error .osError)
      | .ok resolved_source =>
        if existing_target = resolved_source then
          (fs, .ok ⟨operation, .alreadyExists⟩)
        else if isRelativeTo existing_target config.repo_root then
          override_symlink config fs operation
        else
          (fs, .ok ⟨operation, .alreadyExists⟩)
  match body with
  | (fs1, .ok result) => (fs1, result)
  | (fs1, .error _) => (fs1, ⟨operation, .alreadyExists⟩)

/-- `command_install.create_symlink`. -/
def create_symlink (config : Config) (fs : FS)
    (operation : SymlinkOperation) : FS × SymlinkResult :=
  if config.dryrun then
    (fs, ⟨operation, .createdDryrun⟩)
  else
    (fsSet fs operation.target_path (.symlink operation.source_path),
     ⟨operation, .created⟩)

/-- `command_install.apply_install_operation`. -/
def apply_install_operation (config : Config) (fs : FS)
    (operation : SymlinkOperation) : FS × SymlinkResult :=
  if !(pyExists fs operation.source_path) then
    (fs, ⟨operation, .skippedSourceNotFound⟩)
  else if pyIsSymlink fs operation.target_path then
    evaluate_existing_symlink config fs operation
  else if pyExists fs operation.target_path then
    (fs, ⟨operation, .skippedNotSymlink⟩)
  else
    create_symlink config fs operation

end CI

/-!
## Sequential runs (`symlinks.install_symlinks` lines 224–248)
-/

/-- Apply `SL.apply_install_operation` to every filtered operation in order,
threading the filesystem. -/
def run_install (config : Config) (fs : FS) :
    List SymlinkOperation → FS × List SymlinkResult
  | [] => (fs, [])
  | op :: rest =>
    let step := SL.apply_install_operation config fs op
    let tail := run_install config step.1 rest
    (tail.1, step.2 :: tail.2)

/-- Apply `apply_removal_operation` to every obsolete operation in order,
collecting the non-`None` results. -/
def run_removal (config : Config) (fs : FS) :
    List SymlinkOperation → FS × List SymlinkResult
  | [] => (fs, [])
  | op :: rest =>
    let step := apply_removal_operation config fs op
    let tail := run_removal config step.1 rest
    (tail.1, (match step.2 with | some r => [r] | none => []) ++ tail.2)

/-- The reconciliation body of `install_symlinks`: install pass over the
active operations, then removal pass over the obsolete ones. -/
def reconcile (config : Config) (fs : FS)
    (active obsolete : List SymlinkOperation) : FS × List SymlinkResult :=
  let installed := run_install config fs active
  let removed := run_removal config installed.1 obsolete
  (removed.1, installed.2 ++ removed.2)

/-!
## Configuration documents and the full pipeline
(`lib/home/config.py`, `symlinks.py` lines 16–53 and 190–250)
-/

/-- Observable state of a TOML document on disk: absent, present but not
readable/parseable, or present with parsed contents. -/
inductive TomlFileState where
  | absent
  | unreadable
  | doc (fields : List (String × TomlVal))
deriving Repr

/-- A TOML file as the engine sees it. -/
structure TomlFile where
  state : TomlFileState
deriving Repr

/-- `Path.exists()` for a configuration document. -/
def TomlFile.existsOnDisk (f : TomlFile) : Bool :=
  match f.state with
  | .absent => false
  | _ => true

/-- `config.load_toml`: open and parse; an absent file raises
`FileNotFoundError`, an unreadable or malformed one raises during
open/parse. -/
def load_toml (f : TomlFile) : Except PyErr (List (String × TomlVal)) :=
  match f.state with
  | .absent => .error .fileNotFound
  | .unreadable => .error .osError
  | .doc fields => .ok fields

/-- `config.load_config_labels`: `labels` from `config.toml`; any exception
while loading yields the empty list (the `labels` value is modelled in its
list form; an absent key defaults to `[]`). -/
def load_config_labels (config_toml : TomlFile) : List TomlVal :=
  match load_toml config_toml with
  | .error _ => []
  | .ok config_data =>
    match lookupKey config_data "labels" with
    | some (.vlist xs) => xs
    | _ => []

/-- `HomeEntry.resolve_source_path`: join the repository root with the
relative source; a non-string source would fail the path join. -/
def HomeEntry.resolve_source_path (self : HomeEntry)
    (script_dir : FilePath) : Except PyErr FilePath :=
  match self.source with
  | .str s => .ok (script_dir ++ s.splitOn "/")
  | _ => .error .typeError

/-- `Path.expanduser()`: expand a leading `~` component to the home
directory. -/
def expanduser (home : FilePath) (comps : FilePath) : FilePath :=
  match comps with
  | "~" :: rest => home ++ rest
  | _ => comps

/-- `HomeEntry.resolve_target_path`. -/
def HomeEntry.resolve_target_path (self : HomeEntry)
    (home : FilePath) : Except PyErr FilePath :=
  match self.target with
  | .str s => .ok (expanduser home (s.splitOn "/"))
  | _ => .error .typeError

/-- Run-wide configuration: flags, roots and the two documents. -/
structure RunConfig where
  dryrun : Bool
  repo_root : FilePath
  home_dir : FilePath
  config_toml : TomlFile
  home_toml : TomlFile
deriving Repr

/-- The executor-level view of a `RunConfig`. -/
def RunConfig.toConfig (c : RunConfig) : Config :=
  ⟨c.dryrun, c.repo_root⟩

/-- Build the operation for one parsed entry (`symlinks.py` lines 35–39). -/
def opOfEntry (config : RunConfig) (entry : HomeEntry) :
    Except PyErr SymlinkOperation := do
  let source_path ← entry.resolve_source_path config.repo_root
  let target_path ← entry.resolve_target_path config.home_dir
  pure ⟨entry, source_path, target_path⟩

/-- `symlinks.parse_all_operations`: a table value that is a dict yields one
entry, a list yields one per element (a non-dict element fails inside
`from_toml`'s attribute access), any other shape is skipped. -/
def parse_all_operations (config : RunConfig) :
    Except PyErr (List SymlinkOperation) := do
  let home_config ← load_toml config.home_toml
  let opss ← home_config.mapM (fun kv =>
    match kv.2 with
    | .table fields => do
      let entry ← HomeEntry.from_toml kv.1 fields
      let op ← opOfEntry config entry
      pure [op]
    | .vlist entries => entries.mapM (fun entry_data =>
        match entry_data with
        | .table fields => do
          let entry ← HomeEntry.from_toml kv.1 fields
          opOfEntry config entry
        | _ => .error PyErr.attributeError)
    | _ => pure [])
  pure opss.flatten

/-- The body of `install_symlinks` after the fatal existence check: load
labels, plan, partition, and run both passes. -/
def install_from_labels (config : RunConfig) (fs : FS)
    (config_labels : List TomlVal) : Except PyErr (FS × List SymlinkResult) := do
  let all_operations ← parse_all_operations config
  let filtered := filter_operations_by_labels all_operations config_labels
  let obsolete := find_obsolete_operations all_operations filtered
  pure (reconcile config.toConfig fs filtered obsolete)

/-- `symlinks.install_symlinks`: an absent `config.toml` aborts with
`SystemExit(1)` before anything else; otherwise labels are loaded (never
fatally) and the reconciliation runs. -/
def install_symlinks (config : RunConfig) (fs : FS) :
    Except PyErr (FS × List SymlinkResult) :=
  if !(config.config_toml.existsOnDisk) then
    .error (.systemExit 1)
  else
    install_from_labels config fs (load_config_labels config.config_toml)

/-!
## Helper lemmas: label matching
-/

/-- `beq` against a string value tests equality with it. -/
theorem TomlVal.beq_str_iff (v : TomlVal) (s : String) :
    v.beq (TomlVal.str s) = true ↔ v = TomlVal.str s := by
  cases v <;> simp [TomlVal.beq]

/-- Python membership in a label list is existence of an equal element. -/
theorem pyIn_iff (v : TomlVal) (ls : List TomlVal) :
    pyIn v ls = true ↔ ∃ w ∈ ls, v.beq w = true := by
  simp [pyIn, List.any_eq_true]

/-- Membership of a raw label value in a string-valued active list. -/
theorem pyIn_map_str_iff (v : TomlVal) (active : List String) :
    pyIn v (active.map TomlVal.str) = true ↔
      ∃ s ∈ active, v = TomlVal.str s := by
  rw [pyIn_iff]
  constructor
  · rintro ⟨w, hw, hbeq⟩
    obtain ⟨s, hs, rfl⟩ := List.mem_map.mp hw
    exact ⟨s, hs, (TomlVal.beq_str_iff v s).mp hbeq⟩
  · rintro ⟨s, hs, rfl⟩
    exact ⟨TomlVal.str s, List.mem_map_of_mem _ hs,
      (TomlVal.beq_str_iff _ s).mpr rfl⟩

/-- A requirement over string-valued active labels is satisfied exactly when
one of its listed labels is active. -/
theorem LabelRequirement.matches_str_iff (req : LabelRequirement)
    (active : List String) :
    req.matches (active.map TomlVal.str) = true ↔
      ∃ s ∈ active, TomlVal.str s ∈ req.labels := by
  unfold LabelRequirement.matches
  split
  case isTrue h =>
    obtain ⟨l, hl⟩ := List.length_eq_one.mp h
    simp only [hl, List.getD_cons_zero, pyIn_map_str_iff, List.mem_singleton]
    constructor
    · rintro ⟨s, hs, rfl⟩
      exact ⟨s, hs, rfl⟩
    · rintro ⟨s, hs, hmem⟩
      exact ⟨s, hs, hmem.symm⟩
  case isFalse h =>
    simp only [List.any_eq_true, pyIn_map_str_iff]
    constructor
    · rintro ⟨x, hx, s, hs, rfl⟩
      exact ⟨s, hs, hx⟩
    · rintro ⟨s, hs, hmem⟩
      exact ⟨TomlVal.str s, hmem, s, hs, rfl⟩

/-- An entry over string-valued active labels matches exactly when every
requirement lists at least one active label (AND over requirements, OR
inside one; no requirements means match). -/
theorem HomeEntry.matches_labels_str_iff (e : HomeEntry) (active : List String) :
    e.matches_labels (active.map TomlVal.str) = true ↔
      ∀ req ∈ e.requirements, ∃ s ∈ active, TomlVal.str s ∈ req.labels := by
  unfold HomeEntry.matches_labels
  split
  case isTrue h =>
    simp [List.isEmpty_iff.mp h]
  case isFalse h =>
    simp [List.all_eq_true, LabelRequirement.matches_str_iff]

/-- A requirement with an empty label tuple is never satisfied. -/
theorem LabelRequirement.matches_nil (r : LabelRequirement)
    (h : r.labels = []) (active : List TomlVal) : r.matches active = false := by
  unfold LabelRequirement.matches
  rw [h]
  simp

/-!
## Helper lemmas: planner sets
-/

/-- Operation identity is target-path equality. -/
theorem SymlinkOperation.pyEq_iff (a b : SymlinkOperation) :
    a.pyEq b = true ↔ a.target_path = b.target_path := by
  simp [SymlinkOperation.pyEq]

/-- Target paths present after folding Python set insertion. -/
theorem pySetFold_target (l : List SymlinkOperation) :
    ∀ (acc : List SymlinkOperation) (t : FilePath),
      (∃ op ∈ l.foldl
        (fun acc x => if acc.any (fun y => y.pyEq x) then acc else acc ++ [x])
        acc, op.target_path = t) ↔
      (∃ op ∈ acc, op.target_path = t) ∨ (∃ op ∈ l, op.target_path = t) := by
  induction l with
  | nil =>
    intro acc t
    simp
  | cons x xs ih =>
    intro acc t
    simp only [List.foldl_cons]
    by_cases hx : acc.any (fun y => y.pyEq x) = true
    · rw [if_pos hx, ih]
      obtain ⟨y, hy, hyx⟩ := List.any_eq_true.mp hx
      rw [SymlinkOperation.pyEq_iff] at hyx
      constructor
      · rintro (h | ⟨op, hop, hopt⟩)
        · exact .inl h
        · exact .inr ⟨op, List.mem_cons_of_mem x hop, hopt⟩
      · rintro (h | ⟨op, hop, hopt⟩)
        · exact .inl h
        · rcases List.mem_cons.mp hop with rfl | hop
          · exact .inl ⟨y, hy, hyx.trans hopt⟩
          · exact .inr ⟨op, hop, hopt⟩
    · rw [if_neg hx, ih]
      simp only [List.mem_append, List.mem_cons, List.not_mem_nil, or_false]
      constructor
      · rintro (⟨op, hop | rfl, hopt⟩ | ⟨op, hop, hopt⟩)
        · exact .inl ⟨op, hop, hopt⟩
        · exact .inr ⟨op, .inl rfl, hopt⟩
        · exact .inr ⟨op, .inr hop, hopt⟩
      · rintro (⟨op, hop, hopt⟩ | ⟨op, rfl | hop, hopt⟩)
        · exact .inl ⟨op, .inl hop, hopt⟩
        · exact .inl ⟨op, .inr rfl, hopt⟩
        · exact .inr ⟨op, hop, hopt⟩

/-- `pySetOfOps` preserves exactly the target paths of its input. -/
theorem pySetOfOps_target (l : List SymlinkOperation) (t : FilePath) :
    (∃ op ∈ pySetOfOps l, op.target_path = t) ↔
      (∃ op ∈ l, op.target_path = t) := by
  unfold pySetOfOps
  rw [pySetFold_target]
  simp

/-- A target path is in the obsolete set exactly when it occurs in the full
operation list and in no filtered operation. -/
theorem find_obsolete_target_iff (all_operations filtered_operations :
    List SymlinkOperation) (t : FilePath) :
    (∃ op ∈ find_obsolete_operations all_operations filtered_operations,
      op.target_path = t) ↔
      ((∃ op ∈ all_operations, op.target_path = t) ∧
       ¬ ∃ op ∈ filtered_operations, op.target_path = t) := by
  unfold find_obsolete_operations pySetDiffOps
  constructor
  · rintro ⟨op, hop, hopt⟩
    rw [List.mem_filter] at hop
    obtain ⟨hmem, hcond⟩ := hop
    refine ⟨(pySetOfOps_target _ t).mp ⟨op, hmem, hopt⟩, ?_⟩
    rintro hex
    obtain ⟨op2, hop2, hop2t⟩ := (pySetOfOps_target filtered_operations t).mpr hex
    have : (pySetOfOps filtered_operations).any (fun y => y.pyEq op) = true :=
      List.any_eq_true.mpr
        ⟨op2, hop2, (SymlinkOperation.pyEq_iff _ _).mpr (hop2t.trans hopt.symm)⟩
    simp [this] at hcond
  · rintro ⟨⟨op, hop, hopt⟩, hnone⟩
    obtain ⟨op1, hop1, hop1t⟩ := (pySetOfOps_target all_operations t).mpr
      ⟨op, hop, hopt⟩
    refine ⟨op1, List.mem_filter.mpr ⟨hop1, ?_⟩, hop1t⟩
    simp only [Bool.not_eq_true', List.any_eq_false]
    intro y hy
    intro hye
    rw [SymlinkOperation.pyEq_iff] at hye
    obtain ⟨y0, hy0, hy0t⟩ := (pySetOfOps_target filtered_operations
      (y.target_path)).mp ⟨y, hy, rfl⟩
    exact hnone ⟨y0, hy0, hy0t.trans (hye.trans hop1t)⟩

/-!
## Claim C7
-/

/-- C7: an entry matches iff every requirement lists at least one label of
the active set (AND across requirements, OR within one); an entry with zero
requirements always matches; concretely, requirements `[["a","b"], "c"]`
match active labels `{b, c}` but neither `{b}` nor `{c}` alone. -/
theorem C7_label_and_or_semantics :
    (∀ (e : HomeEntry) (active : List String),
      e.matches_labels (active.map TomlVal.str) = true ↔
        ∀ req ∈ e.requirements, ∃ s ∈ active, TomlVal.str s ∈ req.labels)
    ∧ (∀ (tn : String) (src tgt : TomlVal) (active : List TomlVal),
      (HomeEntry.mk tn src tgt []).matches_labels active = true)
    ∧ ((HomeEntry.mk "demo" (.str "config/demo") (.str "~/.demo")
        [⟨[.str "a", .str "b"]⟩, ⟨[.str "c"]⟩]).matches_labels
        [.str "b", .str "c"] = true
      ∧ (HomeEntry.mk "demo" (.str "config/demo") (.str "~/.demo")
        [⟨[.str "a", .str "b"]⟩, ⟨[.str "c"]⟩]).matches_labels
        [.str "b"] = false
      ∧ (HomeEntry.mk "demo" (.str "config/demo") (.str "~/.demo")
        [⟨[.str "a", .str "b"]⟩, ⟨[.str "c"]⟩]).matches_labels
        [.str "c"] = false) :=
  ⟨HomeEntry.matches_labels_str_iff,
   fun _ _ _ _ => rfl,
   rfl, rfl, rfl⟩

/-!
## Claim C4
-/

/-- C4: two operations are equal for set purposes iff their target paths are
equal, and a target path is obsolete exactly when it occurs in the full
operation set and in no active operation. -/
theorem C4_operation_identity_and_obsolete_set :
    (∀ a b : SymlinkOperation, a.pyEq b = true ↔ a.target_path = b.target_path)
    ∧ (∀ (all_operations filtered_operations : List SymlinkOperation)
        (t : FilePath),
      (∃ op ∈ find_obsolete_operations all_operations filtered_operations,
        op.target_path = t) ↔
        ((∃ op ∈ all_operations, op.target_path = t) ∧
         ¬ ∃ op ∈ filtered_operations, op.target_path = t)) :=
  ⟨SymlinkOperation.pyEq_iff, find_obsolete_target_iff⟩

/-!
## Claim C10
-/

/-- C10 (amended): a requirement with an empty label list is never
satisfied, an entry carrying one is never active, and its target path lands
in the obsolete partition provided no other declared operation with the
same target path is active. -/
theorem C10_empty_requirement_never_matches :
    (∀ (active : List TomlVal),
      LabelRequirement.matches ⟨[]⟩ active = false)
    ∧ (∀ (e : HomeEntry) (active : List TomlVal),
      e.requirements.any (fun r => r.labels.isEmpty) = true →
      e.matches_labels active = false)
    ∧ (∀ (ops : List SymlinkOperation) (labels : List TomlVal)
        (op : SymlinkOperation),
      op ∈ ops →
      op.entry.requirements.any (fun r => r.labels.isEmpty) = true →
      (∀ op2 ∈ ops, op2.target_path = op.target_path →
        op2.entry.matches_labels labels = false) →
      ∃ op3 ∈ find_obsolete_operations ops
          (filter_operations_by_labels ops labels),
        op3.target_path = op.target_path) := by
  have hreq : ∀ (active : List TomlVal),
      LabelRequirement.matches ⟨[]⟩ active = false := fun active =>
    LabelRequirement.matches_nil ⟨[]⟩ rfl active
  have hentry : ∀ (e : HomeEntry) (active : List TomlVal),
      e.requirements.any (fun r => r.labels.isEmpty) = true →
      e.matches_labels active = false := by
    intro e active hany
    obtain ⟨r, hr, hre⟩ := List.any_eq_true.mp hany
    have hnil := List.isEmpty_iff.mp hre
    have hne : ¬e.requirements.isEmpty = true := by
      intro h
      rw [List.isEmpty_iff.mp h] at hr
      exact List.not_mem_nil r hr
    unfold HomeEntry.matches_labels
    rw [if_neg hne]
    cases hall : e.requirements.all (fun req => req.matches active) with
    | false => rfl
    | true =>
      have := List.all_eq_true.mp hall r hr
      rw [LabelRequirement.matches_nil r hnil active] at this
      exact absurd this (by simp)
  refine ⟨hreq, hentry, ?_⟩
  intro ops labels op hmem hany hother
  rw [find_obsolete_target_iff]
  refine ⟨⟨op, hmem, rfl⟩, ?_⟩
  rintro ⟨op2, hf, ht⟩
  rw [filter_operations_by_labels, List.mem_filter] at hf
  have := hother op2 hf.1 ht
  rw [this] at hf
  exact absurd hf.2 (by simp)

/-- C10 counterexample to the claim as stated: an entry with an empty OR
requirement whose target path is shared with an active entry does not land
in the obsolete partition — the obsolete set is empty here. -/
theorem C10_duplicate_target_counterexample :
    (filter_operations_by_labels
      [⟨⟨"a", .str "config/a", .str "~/t", [⟨[]⟩]⟩, ["r", "sa"], ["h", "t"]⟩,
       ⟨⟨"b", .str "config/b", .str "~/t", []⟩, ["r", "sb"], ["h", "t"]⟩] []
      = [⟨⟨"b", .str "config/b", .str "~/t", []⟩, ["r", "sb"], ["h", "t"]⟩])
    ∧ (find_obsolete_operations
      [⟨⟨"a", .str "config/a", .str "~/t", [⟨[]⟩]⟩, ["r", "sa"], ["h", "t"]⟩,
       ⟨⟨"b", .str "config/b", .str "~/t", []⟩, ["r", "sb"], ["h", "t"]⟩]
      [⟨⟨"b", .str "config/b", .str "~/t", []⟩, ["r", "sb"], ["h", "t"]⟩]
      = []) :=
  ⟨rfl, rfl⟩

/-- C10 witness: a lone entry with an empty requirement is inactive and its
target path is obsolete. -/
theorem C10_empty_requirement_witness :
    ∃ op3 ∈ find_obsolete_operations
        [⟨⟨"a", .str "config/a", .str "~/t", [⟨[]⟩]⟩, ["r", "sa"], ["h", "t"]⟩]
        (filter_operations_by_labels
          [⟨⟨"a", .str "config/a", .str "~/t", [⟨[]⟩]⟩, ["r", "sa"], ["h", "t"]⟩]
          [.str "x"]),
      op3.target_path =
        (⟨⟨"a", .str "config/a", .str "~/t", [⟨[]⟩]⟩, ["r", "sa"], ["h", "t"]⟩ :
          SymlinkOperation).target_path :=
  C10_empty_requirement_never_matches.2.2
    [⟨⟨"a", .str "config/a", .str "~/t", [⟨[]⟩]⟩, ["r", "sa"], ["h", "t"]⟩]
    [.str "x"]
    ⟨⟨"a", .str "config/a", .str "~/t", [⟨[]⟩]⟩, ["r", "sa"], ["h", "t"]⟩
    (List.mem_cons_self _ _) rfl
    (by
      intro op2 h2 ht
      rcases List.mem_cons.mp h2 with rfl | h2
      · rfl
      · exact absurd h2 (List.not_mem_nil _))

/-!
## Helper lemmas: entry parsing
-/

/-- The requirement shapes `from_value` accepts: a string or a list. -/
def acceptedRequirementShape : TomlVal → Bool
  | .str _ => true
  | .vlist _ => true
  | _ => false

/-- `from_value` fails exactly on values that are neither strings nor
lists, always with `ValueError`. -/
theorem from_value_error_iff (v : TomlVal) (e : PyErr) :
    LabelRequirement.from_value v = .error e ↔
      e = .valueError ∧ acceptedRequirementShape v = false := by
  cases v <;>
    simp [LabelRequirement.from_value, acceptedRequirementShape, eq_comm]

/-- Parsing a requirement list fails exactly when some element is neither a
string nor a list, always with `ValueError`. -/
theorem parseRequirements_error_iff (l : List TomlVal) :
    ∀ e, parseRequirements l = .error e ↔
      e = .valueError ∧ l.all acceptedRequirementShape = false := by
  induction l with
  | nil =>
    intro e
    simp [parseRequirements]
  | cons v vs ih =>
    intro e
    cases hv : LabelRequirement.from_value v with
    | error e2 =>
      obtain ⟨rfl, hsh⟩ := (from_value_error_iff v e2).mp hv
      simp [parseRequirements, hv, bind, Except.bind, hsh, eq_comm]
    | ok r =>
      have hsh : acceptedRequirementShape v = true := by
        cases v <;>
          simp_all [LabelRequirement.from_value, acceptedRequirementShape]
      cases hmv : parseRequirements vs with
      | error e3 =>
        obtain ⟨rfl, hall⟩ := (ih e3).mp hmv
        simp [parseRequirements, hv, hmv, bind, Except.bind, hsh, hall,
          eq_comm]
      | ok rs =>
        simp only [parseRequirements, hv, hmv, bind, Except.bind, pure,
          Except.pure]
        constructor
        · intro h
          exact absurd h (by simp)
        · rintro ⟨rfl, hall⟩
          rw [List.all_cons, hsh, Bool.true_and] at hall
          have := (ih .valueError).mpr ⟨rfl, hall⟩
          rw [hmv] at this
          exact absurd this (by simp)

/-- `pyIter` only ever fails with `TypeError`. -/
theorem pyIter_error (v : TomlVal) (e : PyErr) (h : pyIter v = .error e) :
    e = .typeError := by
  cases v <;> simp_all [pyIter]

/-!
## Claim C9
-/

/-- C9 (amended): with `target` present and a list-shaped `labels` field,
parsing fails with `ValueError` (the `InvalidRequirementError`) exactly when
some requirement value is neither a string nor a list — the elements of a
list requirement are not checked to be strings; an absent `source` defaults
to `config/<table_name>`; and parsing fails with `KeyError` (the
`MissingTargetError`) exactly when `target` is absent. -/
theorem C9_parse_failures_and_source_default
    (table_name : String) (entry_data : List (String × TomlVal))
    (tv : TomlVal) (reqVals : List TomlVal)
    (htarget : lookupKey entry_data "target" = some tv)
    (hlabels : lookupKey entry_data "labels" = some (.vlist reqVals)) :
    (HomeEntry.from_toml table_name entry_data = .error .valueError ↔
      ∃ v ∈ reqVals, acceptedRequirementShape v = false)
    ∧ (lookupKey entry_data "source" = none →
      ∀ e, HomeEntry.from_toml table_name entry_data = .ok e →
        e.source = .str ("config/" ++ table_name))
    ∧ (∀ ed2 : List (String × TomlVal),
      HomeEntry.from_toml table_name ed2 = .error .keyError ↔
        lookupKey ed2 "target" = none) := by
  refine ⟨?_, ?_, ?_⟩
  · unfold HomeEntry.from_toml
    rw [htarget, hlabels]
    simp only [bind, Except.bind, pure, Except.pure, pyIter, Option.getD_some]
    cases hp : parseRequirements reqVals with
    | error e =>
      obtain ⟨rfl, hall⟩ := (parseRequirements_error_iff reqVals e).mp hp
      rw [List.all_eq_false] at hall
      simpa using hall
    | ok rs =>
      simp only []
      constructor
      · intro h
        exact absurd h (by simp)
      · rintro ⟨v, hv, hshape⟩
        have hall : reqVals.all acceptedRequirementShape = false :=
          List.all_eq_false.mpr ⟨v, hv, by simp [hshape]⟩
        have := (parseRequirements_error_iff reqVals .valueError).mpr
          ⟨rfl, hall⟩
        rw [hp] at this
        exact absurd this (by simp)
  · intro hsource e
    unfold HomeEntry.from_toml
    rw [htarget, hlabels, hsource]
    simp only [bind, Except.bind, pure, Except.pure, pyIter, Option.getD_some,
      Option.getD_none]
    cases hp : parseRequirements reqVals with
    | error e2 =>
      intro h
      exact absurd h (by simp)
    | ok rs =>
      intro h
      have := (Except.ok.injEq _ _).mp h.symm
      rw [this]
  · intro ed2
    unfold HomeEntry.from_toml
    cases hT : lookupKey ed2 "target" with
    | none =>
      simp [bind, Except.bind]
    | some tv2 =>
      simp only [bind, Except.bind, pure, Except.pure]
      cases hIter : pyIter ((lookupKey ed2 "labels").getD (.vlist [])) with
      | error eI =>
        have heI := pyIter_error _ _ hIter
        subst heI
        simp
      | ok vals =>
        cases hp : parseRequirements vals with
        | error e2 =>
          obtain ⟨rfl, _⟩ := (parseRequirements_error_iff vals e2).mp hp
          simp [hp]
        | ok rs =>
          simp [hp]

/-- Modelled from the claim's wording only (for comparison with the code):
a requirement value that is "a single label string or a list of label
strings". -/
def specStringOrStringList : TomlVal → Bool
  | .str _ => true
  | .vlist xs => xs.all (fun x => match x with | .str _ => true | _ => false)
  | _ => false

/-- C9 counterexample: a requirement value that is a list of integers is
not "a single label string or a list of label strings", yet `from_toml`
accepts it — element types of a list requirement are never checked. -/
theorem C9_nonstring_list_counterexample :
    specStringOrStringList (.vlist [.int 1]) = false
    ∧ HomeEntry.from_toml "git"
        [("target", .str "~/.gitconfig"), ("labels", .vlist [.vlist [.int 1]])]
      = .ok ⟨"git", .str "config/git", .str "~/.gitconfig", [⟨[.int 1]⟩]⟩ :=
  ⟨rfl, rfl⟩

/-- C9 witness: an integer requirement value fails with `ValueError`, and a
declaration without `target` fails with `KeyError`. -/
theorem C9_parse_failures_witness :
    HomeEntry.from_toml "git"
        [("target", .str "~/.gitconfig"), ("labels", .vlist [.int 3])]
      = .error .valueError
    ∧ HomeEntry.from_toml "git" [] = .error .keyError := by
  have h := C9_parse_failures_and_source_default "git"
    [("target", .str "~/.gitconfig"), ("labels", .vlist [.int 3])]
    (.str "~/.gitconfig") [.int 3] rfl rfl
  exact ⟨h.1.mpr ⟨.int 3, by simp, rfl⟩, (h.2.2 []).mpr rfl⟩

/-!
## Claim C8
-/

/-- C8 (amended): an unreadable (but present) label document is never
fatal — the active labels are treated as empty and the run proceeds as it
would with empty labels; an absent label document, however, aborts the run
with `SystemExit(1)` before any operation. -/
theorem C8_label_document_error_handling (config : RunConfig) (fs : FS) :
    (config.config_toml.state = .unreadable →
      load_config_labels config.config_toml = []
      ∧ install_symlinks config fs = install_from_labels config fs [])
    ∧ (config.config_toml.state = .absent →
      install_symlinks config fs = .error (.systemExit 1)) := by
  constructor
  · intro h
    have hl : load_config_labels config.config_toml = [] := by
      simp [load_config_labels, load_toml, h]
    refine ⟨hl, ?_⟩
    unfold install_symlinks
    rw [show config.config_toml.existsOnDisk = true from by
      simp [TomlFile.existsOnDisk, h]]
    simp [hl]
  · intro h
    unfold install_symlinks
    simp [TomlFile.existsOnDisk, h]

/-- C8 counterexample to the claim as stated: with the label document
absent, the run does not proceed with empty labels — it aborts with exit
code 1. -/
theorem C8_missing_label_document_counterexample :
    install_symlinks ⟨false, ["r"], ["h"], ⟨.absent⟩, ⟨.doc []⟩⟩ []
      = .error (.systemExit 1) :=
  rfl

/-- C8 witness: an unreadable label document yields empty labels and the
run proceeds. -/
theorem C8_label_document_error_handling_witness :
    load_config_labels
        (⟨false, ["r"], ["h"], ⟨.unreadable⟩, ⟨.doc []⟩⟩ : RunConfig).config_toml
      = []
    ∧ install_symlinks ⟨false, ["r"], ["h"], ⟨.unreadable⟩, ⟨.doc []⟩⟩ []
      = install_from_labels ⟨false, ["r"], ["h"], ⟨.unreadable⟩, ⟨.doc []⟩⟩ [] [] :=
  (C8_label_document_error_handling
    ⟨false, ["r"], ["h"], ⟨.unreadable⟩, ⟨.doc []⟩⟩ []).1 rfl

/-!
## Claim C5
-/

/-- C5: the removal flow returns no result and leaves the filesystem
unchanged when the target is not a symlink, when resolution of either path
fails, or when the resolved target differs from the resolved source; it
removes the link (`Removed`, or `RemovedDryRun` without mutation) exactly
when the target is a symlink resolving to the resolved source. -/
theorem C5_removal_flow_cases (config : Config) (fs : FS)
    (op : SymlinkOperation) :
    (pyIsSymlink fs op.target_path = false →
      apply_removal_operation config fs op = (fs, none))
    ∧ (∀ u, pyResolve fs op.target_path = .error u →
      apply_removal_operation config fs op = (fs, none))
    ∧ (∀ rt u, pyResolve fs op.target_path = .ok rt →
      pyResolve fs op.source_path = .error u →
      apply_removal_operation config fs op = (fs, none))
    ∧ (∀ rt rs, pyResolve fs op.target_path = .ok rt →
      pyResolve fs op.source_path = .ok rs → rt ≠ rs →
      apply_removal_operation config fs op = (fs, none))
    ∧ (∀ rt rs, pyIsSymlink fs op.target_path = true →
      pyResolve fs op.target_path = .ok rt →
      pyResolve fs op.source_path = .ok rs → rt = rs →
      apply_removal_operation config fs op =
        (if config.dryrun then (fs, some ⟨op, .removedDryrun⟩)
         else (fsUnlink fs op.target_path, some ⟨op, .removed⟩)))
    ∧ (∀ fs2 r, apply_removal_operation config fs op = (fs2, some r) →
      pyIsSymlink fs op.target_path = true
      ∧ ∃ rt, pyResolve fs op.target_path = .ok rt
            ∧ pyResolve fs op.source_path = .ok rt) := by
  refine ⟨?_, ?_, ?_, ?_, ?_, ?_⟩
  · intro h
    simp [apply_removal_operation, h]
  · intro u h
    cases hsym : pyIsSymlink fs op.target_path with
    | false => simp [apply_removal_operation, hsym]
    | true => simp [apply_removal_operation, hsym, h]
  · intro rt u ht hs
    cases hsym : pyIsSymlink fs op.target_path with
    | false => simp [apply_removal_operation, hsym]
    | true => simp [apply_removal_operation, hsym, ht, hs]
  · intro rt rs ht hs hne
    cases hsym : pyIsSymlink fs op.target_path with
    | false => simp [apply_removal_operation, hsym]
    | true => simp [apply_removal_operation, hsym, ht, hs, hne]
  · intro rt rs hsym ht hs heq
    subst heq
    simp [apply_removal_operation, hsym, ht, hs]
  · intro fs2 r h
    cases hsym : pyIsSymlink fs op.target_path with
    | false => simp [apply_removal_operation, hsym] at h
    | true =>
      refine ⟨rfl, ?_⟩
      cases ht : pyResolve fs op.target_path with
      | error u => simp [apply_removal_operation, hsym, ht] at h
      | ok rt =>
        cases hs : pyResolve fs op.source_path with
        | error u => simp [apply_removal_operation, hsym, ht, hs] at h
        | ok rs =>
          by_cases heq : rt = rs
          · exact ⟨rt, rfl, by rw [heq]⟩
          · simp [apply_removal_operation, hsym, ht, hs, heq] at h

/-- C5 witness: an owned link is removed; a foreign link (resolving
elsewhere) and a plain file are left alone with no result. -/
theorem C5_removal_flow_cases_witness :
    apply_removal_operation ⟨false, ["r"]⟩
        [(["h", "t"], .symlink ["r", "s"]), (["r", "s"], .file)]
        ⟨⟨"a", .str "s", .str "~/t", []⟩, ["r", "s"], ["h", "t"]⟩
      = ([(["r", "s"], .file)],
         some ⟨⟨⟨"a", .str "s", .str "~/t", []⟩, ["r", "s"], ["h", "t"]⟩,
           .removed⟩)
    ∧ apply_removal_operation ⟨false, ["r"]⟩
        [(["h", "t"], .symlink ["e", "x"]), (["e", "x"], .file),
         (["r", "s"], .file)]
        ⟨⟨"a", .str "s", .str "~/t", []⟩, ["r", "s"], ["h", "t"]⟩
      = ([(["h", "t"], .symlink ["e", "x"]), (["e", "x"], .file),
          (["r", "s"], .file)], none)
    ∧ apply_removal_operation ⟨false, ["r"]⟩
        [(["h", "t"], .file), (["r", "s"], .file)]
        ⟨⟨"a", .str "s", .str "~/t", []⟩, ["r", "s"], ["h", "t"]⟩
      = ([(["h", "t"], .file), (["r", "s"], .file)], none) := by
  refine ⟨?_, ?_, ?_⟩
  · have h := (C5_removal_flow_cases ⟨false, ["r"]⟩
      [(["h", "t"], .symlink ["r", "s"]), (["r", "s"], .file)]
      ⟨⟨"a", .str "s", .str "~/t", []⟩, ["r", "s"], ["h", "t"]⟩).2.2.2.2.1
      ["r", "s"] ["r", "s"] rfl rfl rfl rfl
    simpa using h
  · exact (C5_removal_flow_cases ⟨false, ["r"]⟩ _ _).2.2.2.1
      ["e", "x"] ["r", "s"] rfl rfl (by decide)
  · exact (C5_removal_flow_cases ⟨false, ["r"]⟩ _ _).1 rfl

/-!
## Claim C6
-/

/-- C6: an existing non-symlink target with an existing source is reported
`SkippedForeignFile` and the filesystem — in particular that target — is
left completely unchanged, in both executor variants. -/
theorem C6_foreign_file_untouched (config : Config) (fs : FS)
    (op : SymlinkOperation)
    (hsrc : pyExists fs op.source_path = true)
    (hlink : pyIsSymlink fs op.target_path = false)
    (hex : pyExists fs op.target_path = true) :
    SL.apply_install_operation config fs op = (fs, ⟨op, .skippedNotSymlink⟩)
    ∧ CI.apply_install_operation config fs op =
        (fs, ⟨op, .skippedNotSymlink⟩) := by
  constructor
  · simp [SL.apply_install_operation, hsrc, hlink, hex]
  · simp [CI.apply_install_operation, hsrc, hlink, hex]

/-- C6 witness: a plain file at the target survives the install flow
untouched with a `SkippedForeignFile` report. -/
theorem C6_foreign_file_untouched_witness :
    SL.apply_install_operation ⟨false, ["r"]⟩
        [(["h", "t"], .file), (["r", "s"], .file)]
        ⟨⟨"a", .str "s", .str "~/t", []⟩, ["r", "s"], ["h", "t"]⟩
      = ([(["h", "t"], .file), (["r", "s"], .file)],
         ⟨⟨⟨"a", .str "s", .str "~/t", []⟩, ["r", "s"], ["h", "t"]⟩,
           .skippedNotSymlink⟩)
    ∧ CI.apply_install_operation ⟨false, ["r"]⟩
        [(["h", "t"], .file), (["r", "s"], .file)]
        ⟨⟨"a", .str "s", .str "~/t", []⟩, ["r", "s"], ["h", "t"]⟩
      = ([(["h", "t"], .file), (["r", "s"], .file)],
         ⟨⟨⟨"a", .str "s", .str "~/t", []⟩, ["r", "s"], ["h", "t"]⟩,
           .skippedNotSymlink⟩) :=
  C6_foreign_file_untouched ⟨false, ["r"]⟩
    [(["h", "t"], .file), (["r", "s"], .file)]
    ⟨⟨"a", .str "s", .str "~/t", []⟩, ["r", "s"], ["h", "t"]⟩ rfl rfl rfl

/-!
## Claim C1
-/

/-- C1: evaluation of the `command_install.py` install flow at a target
symlink that resolves inside the repository root but not to the source.
The code takes the override branch: in real mode it removes the old link
and creates the new one, but the status assignment touches the missing
`SymlinkStatus.OVERRIDDEN` member, the `AttributeError` is swallowed, and
the result reports `ALREADY_EXISTS`; in dry-run mode nothing is mutated and
the result likewise reports `ALREADY_EXISTS` instead of an
`OverriddenDryRun`. -/
theorem C1_override_reports_already_exists :
    CI.apply_install_operation ⟨false, ["repo"]⟩
        [(["home", "fish"], .symlink ["repo", "old", "fish"]),
         (["repo", "old", "fish"], .file), (["repo", "cfg", "fish"], .file)]
        ⟨⟨"fish", .str "cfg/fish", .str "~/fish", []⟩,
          ["repo", "cfg", "fish"], ["home", "fish"]⟩
      = ([(["home", "fish"], .symlink ["repo", "cfg", "fish"]),
          (["repo", "old", "fish"], .file), (["repo", "cfg", "fish"], .file)],
         ⟨⟨⟨"fish", .str "cfg/fish", .str "~/fish", []⟩,
           ["repo", "cfg", "fish"], ["home", "fish"]⟩, .alreadyExists⟩)
    ∧ CI.apply_install_operation ⟨true, ["repo"]⟩
        [(["home", "fish"], .symlink ["repo", "old", "fish"]),
         (["repo", "old", "fish"], .file), (["repo", "cfg", "fish"], .file)]
        ⟨⟨"fish", .str "cfg/fish", .str "~/fish", []⟩,
          ["repo", "cfg", "fish"], ["home", "fish"]⟩
      = ([(["home", "fish"], .symlink ["repo", "old", "fish"]),
          (["repo", "old", "fish"], .file), (["repo", "cfg", "fish"], .file)],
         ⟨⟨⟨"fish", .str "cfg/fish", .str "~/fish", []⟩,
           ["repo", "cfg", "fish"], ["home", "fish"]⟩, .alreadyExists⟩)
    ∧ pyResolve
        [(["home", "fish"], .symlink ["repo", "old", "fish"]),
         (["repo", "old", "fish"], .file), (["repo", "cfg", "fish"], .file)]
        ["home", "fish"] = .ok ["repo", "old", "fish"]
    ∧ isRelativeTo ["repo", "old", "fish"] ["repo"] = true
    ∧ (["repo", "old", "fish"] : FilePath) ≠ ["repo", "cfg", "fish"] :=
  ⟨rfl, rfl, rfl, rfl, by decide⟩

/-!
## Claim C2
-/

/-- The dry-run counterpart of a real-run status tag (identity on tags that
do not mutate). -/
def toDryStatus : SymlinkStatus → SymlinkStatus
  | .created => .createdDryrun
  | .removed => .removedDryrun
  | s => s

/-- Equality of two status-tag lists as sets. -/
def statusSetEq (a b : List SymlinkStatus) : Bool :=
  a.all (fun s => b.contains s) && b.all (fun s => a.contains s)

/-- A dry-run install step never changes the filesystem. -/
theorem SL.apply_install_dry_fst (config : Config) (hdry : config.dryrun = true)
    (fs : FS) (op : SymlinkOperation) :
    (SL.apply_install_operation config fs op).1 = fs := by
  cases h1 : pyExists fs op.source_path <;>
    cases h2 : pyIsSymlink fs op.target_path <;>
      cases h3 : pyExists fs op.target_path <;>
        simp [SL.apply_install_operation, h1, h2, h3, hdry]

/-- A dry-run removal step never changes the filesystem. -/
theorem apply_removal_dry_fst (config : Config) (hdry : config.dryrun = true)
    (fs : FS) (op : SymlinkOperation) :
    (apply_removal_operation config fs op).1 = fs := by
  cases hsym : pyIsSymlink fs op.target_path with
  | false => simp [apply_removal_operation, hsym]
  | true =>
    cases ht : pyResolve fs op.target_path with
    | error u => simp [apply_removal_operation, hsym, ht]
    | ok rt =>
      cases hs : pyResolve fs op.source_path with
      | error u => simp [apply_removal_operation, hsym, ht, hs]
      | ok rs =>
        by_cases heq : rt = rs <;>
          simp [apply_removal_operation, hsym, ht, hs, heq, hdry]

/-- A dry-run install pass leaves the filesystem unchanged. -/
theorem run_install_dry_fst (config : Config) (hdry : config.dryrun = true)
    (fs : FS) (ops : List SymlinkOperation) :
    (run_install config fs ops).1 = fs := by
  induction ops generalizing fs with
  | nil => rfl
  | cons op rest ih =>
    show (run_install config
      (SL.apply_install_operation config fs op).1 rest).1 = fs
    rw [SL.apply_install_dry_fst config hdry fs op, ih fs]

/-- A dry-run removal pass leaves the filesystem unchanged. -/
theorem run_removal_dry_fst (config : Config) (hdry : config.dryrun = true)
    (fs : FS) (ops : List SymlinkOperation) :
    (run_removal config fs ops).1 = fs := by
  induction ops generalizing fs with
  | nil => rfl
  | cons op rest ih =>
    show (run_removal config
      (apply_removal_operation config fs op).1 rest).1 = fs
    rw [apply_removal_dry_fst config hdry fs op, ih fs]

/-- C2 (amended): a whole dry-run reconciliation leaves the starting
filesystem state unchanged, and for each single operation evaluated from
the same state, dry-run and real mode take the same decision branch and
produce corresponding tags (`Created`↔`CreatedDryRun`,
`Removed`↔`RemovedDryRun`, identical otherwise). -/
theorem C2_dryrun_no_mutation_and_per_op_tags (root : FilePath) (fs : FS)
    (active obsolete : List SymlinkOperation) (op : SymlinkOperation) :
    (reconcile ⟨true, root⟩ fs active obsolete).1 = fs
    ∧ (SL.apply_install_operation ⟨true, root⟩ fs op).1 = fs
    ∧ (SL.apply_install_operation ⟨true, root⟩ fs op).2.status =
        toDryStatus ((SL.apply_install_operation ⟨false, root⟩ fs op).2.status)
    ∧ (apply_removal_operation ⟨true, root⟩ fs op).1 = fs
    ∧ ((apply_removal_operation ⟨true, root⟩ fs op).2.map
        (fun r => r.status)) =
      ((apply_removal_operation ⟨false, root⟩ fs op).2.map
        (fun r => toDryStatus r.status)) := by
  refine ⟨?_, SL.apply_install_dry_fst _ rfl fs op, ?_,
    apply_removal_dry_fst _ rfl fs op, ?_⟩
  · show (run_removal ⟨true, root⟩
      (run_install ⟨true, root⟩ fs active).1 obsolete).1 = fs
    rw [run_install_dry_fst _ rfl, run_removal_dry_fst _ rfl]
  · cases h1 : pyExists fs op.source_path <;>
      cases h2 : pyIsSymlink fs op.target_path <;>
        cases h3 : pyExists fs op.target_path <;>
          simp [SL.apply_install_operation, h1, h2, h3, toDryStatus]
  · cases hsym : pyIsSymlink fs op.target_path with
    | false => simp [apply_removal_operation, hsym]
    | true =>
      cases ht : pyResolve fs op.target_path with
      | error u => simp [apply_removal_operation, hsym, ht]
      | ok rt =>
        cases hs : pyResolve fs op.source_path with
        | error u => simp [apply_removal_operation, hsym, ht, hs]
        | ok rs =>
          by_cases heq : rt = rs <;>
            simp [apply_removal_operation, hsym, ht, hs, heq, toDryStatus]

/-- C2 counterexample to the claim as stated: with two active operations
sharing a target path, the real run reports `Created` then `AlreadyLinked`
while the dry run reports `CreatedDryRun` twice, so the tag sets differ
even after substituting the dry-run counterparts. -/
theorem C2_dryrun_set_counterexample :
    ((run_install ⟨false, ["r"]⟩ [(["r", "sa"], .file)]
        [⟨⟨"a", .str "sa", .str "~/t", []⟩, ["r", "sa"], ["h", "t"]⟩,
         ⟨⟨"b", .str "sb", .str "~/t", []⟩, ["r", "sa"], ["h", "t"]⟩]).2.map
      (fun r => r.status)) = [.created, .alreadyExists]
    ∧ ((run_install ⟨true, ["r"]⟩ [(["r", "sa"], .file)]
        [⟨⟨"a", .str "sa", .str "~/t", []⟩, ["r", "sa"], ["h", "t"]⟩,
         ⟨⟨"b", .str "sb", .str "~/t", []⟩, ["r", "sa"], ["h", "t"]⟩]).2.map
      (fun r => r.status)) = [.createdDryrun, .createdDryrun]
    ∧ statusSetEq
        (((run_install ⟨true, ["r"]⟩ [(["r", "sa"], .file)]
          [⟨⟨"a", .str "sa", .str "~/t", []⟩, ["r", "sa"], ["h", "t"]⟩,
           ⟨⟨"b", .str "sb", .str "~/t", []⟩, ["r", "sa"], ["h", "t"]⟩]).2.map
          (fun r => toDryStatus r.status)))
        (((run_install ⟨false, ["r"]⟩ [(["r", "sa"], .file)]
          [⟨⟨"a", .str "sa", .str "~/t", []⟩, ["r", "sa"], ["h", "t"]⟩,
           ⟨⟨"b", .str "sb", .str "~/t", []⟩, ["r", "sa"], ["h", "t"]⟩]).2.map
          (fun r => toDryStatus r.status)))
      = false :=
  ⟨rfl, rfl, rfl⟩

/-!
## Helper lemmas: filesystem monotonicity

The real-mode install pass only ever adds a symlink node at a path that had
no node.  Such extensions preserve every `some`-node and therefore preserve
`is_symlink` and positive `exists` checks, which drives the second-run
analysis of claim C3.
-/

/-- `fs2` extends `fs`: it is at least as long and keeps every stored
node. -/
def FSLe (fs fs2 : FS) : Prop :=
  fs.length ≤ fs2.length ∧ ∀ p x, fsFind fs p = some x → fsFind fs2 p = some x

theorem FSLe.rfl (fs : FS) : FSLe fs fs :=
  ⟨le_refl _, fun _ _ h => h⟩

theorem FSLe.trans {a b c : FS} (h1 : FSLe a b) (h2 : FSLe b c) : FSLe a c :=
  ⟨h1.1.trans h2.1, fun p x h => h2.2 p x (h1.2 p x h)⟩

/-- The node just stored is found. -/
theorem fsFind_fsSet_self (fs : FS) (t : FilePath) (n : FSNode) :
    fsFind (fsSet fs t n) t = some n := by
  simp [fsSet, fsFind]

/-- Storing a node at a fresh path is an extension. -/
theorem FSLe_fsSet_fresh (fs : FS) (t : FilePath) (n : FSNode)
    (h : fsFind fs t = none) : FSLe fs (fsSet fs t n) := by
  refine ⟨by simp [fsSet], ?_⟩
  intro p x hp
  by_cases hpt : p = t
  · rw [hpt] at hp
    rw [hp] at h
    cases h
  · simpa [fsSet, fsFind, hpt] using hp

/-- Successful resolution is stable under additional fuel. -/
theorem resolveAux_mono (fs : FS) :
    ∀ n m p q, resolveAux fs n p = .ok q → n ≤ m →
      resolveAux fs m p = .ok q := by
  intro n
  induction n with
  | zero =>
    intro m p q h _
    simp [resolveAux] at h
  | succ k ih =>
    intro m p q h hnm
    obtain ⟨m2, rfl⟩ : ∃ m2, m = m2 + 1 := ⟨m - 1, by omega⟩
    cases hf : fsFind fs p with
    | none =>
      simp [resolveAux, hf] at h ⊢
      exact h
    | some x =>
      cases x with
      | symlink t =>
        simp only [resolveAux, hf] at h ⊢
        exact ih m2 t q h (by omega)
      | file =>
        simp [resolveAux, hf] at h ⊢
        exact h
      | dir =>
        simp [resolveAux, hf] at h ⊢
        exact h

/-- A resolution chain ending at a stored node survives any node-preserving
extension. -/
theorem resolveAux_preserved (fs fs2 : FS)
    (hmono : ∀ p x, fsFind fs p = some x → fsFind fs2 p = some x) :
    ∀ n p q x, resolveAux fs n p = .ok q → fsFind fs q = some x →
      resolveAux fs2 n p = .ok q := by
  intro n
  induction n with
  | zero =>
    intro p q x h _
    simp [resolveAux] at h
  | succ k ih =>
    intro p q x h hq
    cases hf : fsFind fs p with
    | none =>
      simp [resolveAux, hf] at h
      rw [h] at hf
      rw [hf] at hq
      cases hq
    | some x2 =>
      cases x2 with
      | symlink t =>
        simp only [resolveAux, hf] at h
        have h2 := hmono p _ hf
        simp only [resolveAux, h2]
        exact ih t q x h hq
      | file =>
        simp [resolveAux, hf] at h
        subst h
        have h2 := hmono p _ hf
        simp [resolveAux, h2]
      | dir =>
        simp [resolveAux, hf] at h
        subst h
        have h2 := hmono p _ hf
        simp [resolveAux, h2]

/-- Positive existence survives extension. -/
theorem pyExists_mono (fs fs2 : FS) (hle : FSLe fs fs2) (p : FilePath)
    (h : pyExists fs p = true) : pyExists fs2 p = true := by
  unfold pyExists at h ⊢
  cases hr : pyResolve fs p with
  | error u =>
    rw [hr] at h
    simp at h
  | ok q =>
    rw [hr] at h
    obtain ⟨x, hx⟩ := Option.isSome_iff_exists.mp h
    have hr0 : resolveAux fs (fs.length + 1) p = .ok q := hr
    have h1 : resolveAux fs2 (fs.length + 1) p = .ok q :=
      resolveAux_preserved fs fs2 hle.2 _ p q x hr0 hx
    have h2 : resolveAux fs2 (fs2.length + 1) p = .ok q :=
      resolveAux_mono fs2 _ _ p q h1 (by have := hle.1; omega)
    have h3 : pyResolve fs2 p = .ok q := h2
    rw [h3]
    simp [Option.isSome_iff_exists]
    exact ⟨x, hle.2 q x hx⟩

/-- Being a symlink survives extension. -/
theorem pyIsSymlink_mono (fs fs2 : FS) (hle : FSLe fs fs2) (p : FilePath)
    (h : pyIsSymlink fs p = true) : pyIsSymlink fs2 p = true := by
  unfold pyIsSymlink at h ⊢
  cases hf : fsFind fs p with
  | none =>
    rw [hf] at h
    simp at h
  | some x =>
    cases x with
    | symlink t => simp [hle.2 p _ hf]
    | file =>
      rw [hf] at h
      simp at h
    | dir =>
      rw [hf] at h
      simp at h

/-- A stored non-symlink node makes the path exist. -/
theorem pyExists_of_find_nonlink (fs : FS) (p : FilePath) (x : FSNode)
    (hx : fsFind fs p = some x) (hnl : ∀ t, x ≠ .symlink t) :
    pyExists fs p = true := by
  have hres : pyResolve fs p = .ok p := by
    show resolveAux fs (fs.length + 1) p = .ok p
    cases x with
    | symlink t => exact absurd rfl (hnl t)
    | file => simp [resolveAux, hx]
    | dir => simp [resolveAux, hx]
  unfold pyExists
  rw [hres]
  simp [hx]

/-- A path that is neither a symlink nor existing stores no node. -/
theorem fsFind_none_of_not_exists (fs : FS) (p : FilePath)
    (hsym : pyIsSymlink fs p = false) (hex : pyExists fs p = false) :
    fsFind fs p = none := by
  cases hf : fsFind fs p with
  | none => rfl
  | some x =>
    cases x with
    | symlink t => simp [pyIsSymlink, hf] at hsym
    | file =>
      have := pyExists_of_find_nonlink fs p .file hf (by simp)
      rw [this] at hex
      cases hex
    | dir =>
      have := pyExists_of_find_nonlink fs p .dir hf (by simp)
      rw [this] at hex
      cases hex

/-- A non-symlink path that exists stores a file or directory node. -/
theorem fsFind_nonlink_of_skipped (fs : FS) (p : FilePath)
    (hsym : pyIsSymlink fs p = false) (hex : pyExists fs p = true) :
    fsFind fs p = some .file ∨ fsFind fs p = some .dir := by
  cases hf : fsFind fs p with
  | none =>
    exfalso
    unfold pyExists at hex
    have hres : pyResolve fs p = .ok p := by
      show resolveAux fs (fs.length + 1) p = .ok p
      simp [resolveAux, hf]
    rw [hres] at hex
    simp [hf] at hex
  | some x =>
    cases x with
    | symlink t => simp [pyIsSymlink, hf] at hsym
    | file => exact .inl rfl
    | dir => exact .inr rfl

/-- Exhaustive branch analysis of a real-mode install step. -/
theorem SL.apply_real_cases (root : FilePath) (fs : FS)
    (op : SymlinkOperation) :
    (SL.apply_install_operation ⟨false, root⟩ fs op =
        (fs, ⟨op, .skippedSourceNotFound⟩)
      ∧ pyExists fs op.source_path = false)
    ∨ (SL.apply_install_operation ⟨false, root⟩ fs op =
        (fs, ⟨op, .alreadyExists⟩)
      ∧ pyExists fs op.source_path = true
      ∧ pyIsSymlink fs op.target_path = true)
    ∨ (SL.apply_install_operation ⟨false, root⟩ fs op =
        (fs, ⟨op, .skippedNotSymlink⟩)
      ∧ pyExists fs op.source_path = true
      ∧ pyIsSymlink fs op.target_path = false
      ∧ pyExists fs op.target_path = true)
    ∨ (SL.apply_install_operation ⟨false, root⟩ fs op =
        (fsSet fs op.target_path (.symlink op.source_path), ⟨op, .created⟩)
      ∧ pyExists fs op.source_path = true
      ∧ fsFind fs op.target_path = none) := by
  cases h1 : pyExists fs op.source_path with
  | false => exact .inl ⟨by simp [SL.apply_install_operation, h1], rfl⟩
  | true =>
    cases h2 : pyIsSymlink fs op.target_path with
    | true =>
      exact .inr (.inl ⟨by simp [SL.apply_install_operation, h1, h2],
        rfl, rfl⟩)
    | false =>
      cases h3 : pyExists fs op.target_path with
      | true =>
        exact .inr (.inr (.inl
          ⟨by simp [SL.apply_install_operation, h1, h2, h3], rfl, rfl, rfl⟩))
      | false =>
        exact .inr (.inr (.inr
          ⟨by simp [SL.apply_install_operation, h1, h2, h3], rfl,
           fsFind_none_of_not_exists fs op.target_path h2 h3⟩))

/-- One real-mode install step extends the filesystem. -/
theorem SL.FSLe_apply_install (root : FilePath) (fs : FS)
    (op : SymlinkOperation) :
    FSLe fs (SL.apply_install_operation ⟨false, root⟩ fs op).1 := by
  rcases SL.apply_real_cases root fs op with
    ⟨heq, _⟩ | ⟨heq, _, _⟩ | ⟨heq, _, _, _⟩ | ⟨heq, _, hnone⟩
  · rw [heq]
    exact FSLe.rfl fs
  · rw [heq]
    exact FSLe.rfl fs
  · rw [heq]
    exact FSLe.rfl fs
  · rw [heq]
    exact FSLe_fsSet_fresh fs _ _ hnone

/-- A real-mode install pass extends the filesystem. -/
theorem SL.FSLe_run_install (root : FilePath) (ops : List SymlinkOperation) :
    ∀ fs, FSLe fs (run_install ⟨false, root⟩ fs ops).1 := by
  induction ops with
  | nil => intro fs; exact FSLe.rfl fs
  | cons op rest ih =>
    intro fs
    show FSLe fs (run_install ⟨false, root⟩
      (SL.apply_install_operation ⟨false, root⟩ fs op).1 rest).1
    exact (SL.FSLe_apply_install root fs op).trans (ih _)

/-- The status rewrite of a second run: a first-run `Created` becomes
`AlreadyLinked`; everything else repeats. -/
def fixStatus : SymlinkStatus → SymlinkStatus
  | .created => .alreadyExists
  | s => s

/-!
## Claim C3
-/

/-- C3 (amended): provided every active operation's source path exists in
the starting state, a second real-mode install pass run immediately after a
first one leaves the filesystem exactly as the first pass left it and
reports, per operation, `AlreadyLinked` wherever the first pass reported
`Created` or `AlreadyLinked`, and the same skip status wherever the first
pass skipped. -/
theorem C3_install_flow_idempotent (root : FilePath)
    (ops : List SymlinkOperation) :
    ∀ fs, (∀ op ∈ ops, pyExists fs op.source_path = true) →
    run_install ⟨false, root⟩ (run_install ⟨false, root⟩ fs ops).1 ops =
      ((run_install ⟨false, root⟩ fs ops).1,
       (run_install ⟨false, root⟩ fs ops).2.map
         (fun r => ⟨r.operation, fixStatus r.status⟩)) := by
  induction ops with
  | nil =>
    intro fs _
    rfl
  | cons op rest ih =>
    intro fs hsrc
    have hsop : pyExists fs op.source_path = true :=
      hsrc op (List.mem_cons_self op rest)
    have hunfold : ∀ g : FS, run_install (⟨false, root⟩ : Config) g
        (op :: rest) =
        ((run_install ⟨false, root⟩
            (SL.apply_install_operation ⟨false, root⟩ g op).1 rest).1,
         (SL.apply_install_operation ⟨false, root⟩ g op).2 ::
           (run_install ⟨false, root⟩
             (SL.apply_install_operation ⟨false, root⟩ g op).1 rest).2) :=
      fun g => rfl
    rcases SL.apply_real_cases root fs op with
      ⟨heq, hsf⟩ | ⟨heq, _, hsym⟩ | ⟨heq, _, hsym, hex⟩ | ⟨heq, _, hnone⟩
    · rw [hsop] at hsf
      cases hsf
    · -- first run: AlreadyLinked
      have hsrcA : ∀ o ∈ rest, pyExists fs o.source_path = true :=
        fun o ho => hsrc o (List.mem_cons_of_mem op ho)
      have hIH := ih fs hsrcA
      have hle : FSLe fs (run_install ⟨false, root⟩ fs rest).1 :=
        SL.FSLe_run_install root rest fs
      have happly : SL.apply_install_operation ⟨false, root⟩
          (run_install ⟨false, root⟩ fs rest).1 op =
          ((run_install ⟨false, root⟩ fs rest).1, ⟨op, .alreadyExists⟩) := by
        have hs1 := pyExists_mono _ _ hle _ hsop
        have hy1 := pyIsSymlink_mono _ _ hle _ hsym
        simp [SL.apply_install_operation, hs1, hy1]
      simp only [hunfold, heq, happly, hIH, List.map_cons, fixStatus]
    · -- first run: SkippedForeignFile
      have hsrcA : ∀ o ∈ rest, pyExists fs o.source_path = true :=
        fun o ho => hsrc o (List.mem_cons_of_mem op ho)
      have hIH := ih fs hsrcA
      have hle : FSLe fs (run_install ⟨false, root⟩ fs rest).1 :=
        SL.FSLe_run_install root rest fs
      have happly : SL.apply_install_operation ⟨false, root⟩
          (run_install ⟨false, root⟩ fs rest).1 op =
          ((run_install ⟨false, root⟩ fs rest).1, ⟨op, .skippedNotSymlink⟩) := by
        have hs1 := pyExists_mono _ _ hle _ hsop
        rcases fsFind_nonlink_of_skipped fs op.target_path hsym hex with hf | hf
        · have hf1 := hle.2 _ _ hf
          have hy1 : pyIsSymlink (run_install ⟨false, root⟩ fs rest).1
              op.target_path = false := by simp [pyIsSymlink, hf1]
          have he1 := pyExists_of_find_nonlink _ _ _ hf1
            (fun t => by simp)
          simp [SL.apply_install_operation, hs1, hy1, he1]
        · have hf1 := hle.2 _ _ hf
          have hy1 : pyIsSymlink (run_install ⟨false, root⟩ fs rest).1
              op.target_path = false := by simp [pyIsSymlink, hf1]
          have he1 := pyExists_of_find_nonlink _ _ _ hf1
            (fun t => by simp)
          simp [SL.apply_install_operation, hs1, hy1, he1]
      simp only [hunfold, heq, happly, hIH, List.map_cons, fixStatus]
    · -- first run: Created
      have hleSet : FSLe fs (fsSet fs op.target_path
          (.symlink op.source_path)) :=
        FSLe_fsSet_fresh fs _ _ hnone
      have hsrcA : ∀ o ∈ rest, pyExists
          (fsSet fs op.target_path (.symlink op.source_path))
          o.source_path = true :=
        fun o ho => pyExists_mono _ _ hleSet _
          (hsrc o (List.mem_cons_of_mem op ho))
      have hIH := ih _ hsrcA
      have hleA := SL.FSLe_run_install root rest
        (fsSet fs op.target_path (.symlink op.source_path))
      have hle := hleSet.trans hleA
      have happly : SL.apply_install_operation ⟨false, root⟩
          (run_install ⟨false, root⟩
            (fsSet fs op.target_path (.symlink op.source_path)) rest).1 op =
          ((run_install ⟨false, root⟩
            (fsSet fs op.target_path (.symlink op.source_path)) rest).1,
           ⟨op, .alreadyExists⟩) := by
        have hs1 := pyExists_mono _ _ hle _ hsop
        have hf1 := hleA.2 _ _ (fsFind_fsSet_self fs op.target_path
          (.symlink op.source_path))
        have hy1 : pyIsSymlink (run_install ⟨false, root⟩
            (fsSet fs op.target_path (.symlink op.source_path)) rest).1
            op.target_path = true := by simp [pyIsSymlink, hf1]
        simp [SL.apply_install_operation, hs1, hy1]
      simp only [hunfold, heq, happly, hIH, List.map_cons, fixStatus]

/-- C3 counterexample to the claim as stated: a missing source and a
foreign file at the target repeat `SkippedSourceMissing` /
`SkippedForeignFile` on the second run, not `AlreadyLinked`. -/
theorem C3_idempotence_counterexample :
    ((run_install ⟨false, ["r"]⟩
        (run_install ⟨false, ["r"]⟩ []
          [⟨⟨"m", .str "sm", .str "~/tm", []⟩, ["r", "sm"], ["h", "tm"]⟩]).1
        [⟨⟨"m", .str "sm", .str "~/tm", []⟩, ["r", "sm"], ["h", "tm"]⟩]).2.map
      (fun r => r.status)) = [.skippedSourceNotFound]
    ∧ ((run_install ⟨false, ["r"]⟩
        (run_install ⟨false, ["r"]⟩
          [(["h", "tf"], .file), (["r", "sf"], .file)]
          [⟨⟨"f", .str "sf", .str "~/tf", []⟩, ["r", "sf"], ["h", "tf"]⟩]).1
        [⟨⟨"f", .str "sf", .str "~/tf", []⟩, ["r", "sf"], ["h", "tf"]⟩]).2.map
      (fun r => r.status)) = [.skippedNotSymlink]
    ∧ SymlinkStatus.skippedSourceNotFound ≠ SymlinkStatus.alreadyExists
    ∧ SymlinkStatus.skippedNotSymlink ≠ SymlinkStatus.alreadyExists :=
  ⟨rfl, rfl, by decide, by decide⟩

/-- C3 witness: one operation with an existing source is `Created` on the
first run, and the second run reproduces the final state with
`AlreadyLinked`. -/
theorem C3_install_flow_idempotent_witness :
    (∀ op ∈ [(⟨⟨"w", .str "s", .str "~/t", []⟩, ["r", "s"], ["h", "t"]⟩ :
        SymlinkOperation)],
      pyExists [(["r", "s"], FSNode.file)] op.source_path = true)
    ∧ run_install ⟨false, ["r"]⟩
        (run_install ⟨false, ["r"]⟩ [(["r", "s"], FSNode.file)]
          [⟨⟨"w", .str "s", .str "~/t", []⟩, ["r", "s"], ["h", "t"]⟩]).1
        [⟨⟨"w", .str "s", .str "~/t", []⟩, ["r", "s"], ["h", "t"]⟩] =
      ((run_install ⟨false, ["r"]⟩ [(["r", "s"], FSNode.file)]
          [⟨⟨"w", .str "s", .str "~/t", []⟩, ["r", "s"], ["h", "t"]⟩]).1,
       (run_install ⟨false, ["r"]⟩ [(["r", "s"], FSNode.file)]
          [⟨⟨"w", .str "s", .str "~/t", []⟩, ["r", "s"], ["h", "t"]⟩]).2.map
         (fun r => ⟨r.operation, fixStatus r.status⟩)) := by
  have hsrc : ∀ op ∈ [(⟨⟨"w", .str "s", .str "~/t", []⟩, ["r", "s"],
      ["h", "t"]⟩ : SymlinkOperation)],
      pyExists [(["r", "s"], FSNode.file)] op.source_path = true := by
    intro o ho
    rcases List.mem_singleton.mp ho with rfl
    rfl
  exact ⟨hsrc, C3_install_flow_idempotent ["r"] _ _ hsrc⟩

end Home
